import Mathlib

/-!
Verification of the station reference & proximity resolution engine of
`pre-system_svea` (`src/ctd_pre_system/station.py`).

The Python code is shallowly embedded: Python numbers become `ℚ` (the module
performs exact-looking arithmetic on coordinates; we model float arithmetic by
exact rational/real arithmetic), Python values that can flow through the
lenient coordinate converter become the inductive `PyVal` (numbers, strings,
`None`, sequences), raising an exception becomes `Except.error`, and returning
`None` becomes `Option.none`.  Python `str` operations that the code relies on
(`strip`, `upper`, `split('<or>')`, `float(...)` parsing) are modelled by
structurally recursive functions over `List Char` so that concrete instances
evaluate inside the kernel.
-/

namespace PreSystemSvea

/-- Model of a Python runtime value as far as `station.py` can observe it:
a number (int/float, modelled exactly by `ℚ`), a string, `None`, or a
non-string sequence (list/tuple). -/
inductive PyVal where
  | num (q : ℚ)
  | str (s : String)
  | pyNone
  | list (xs : List PyVal)

/-- Python whitespace test used by `str.strip` (ASCII subset). -/
def isWS (c : Char) : Bool :=
  c == ' ' || c == '\t' || c == '\n' || c == '\r' || c == '\x0b' || c == '\x0c'

/-- Model of Python `str.strip()` on the character list. -/
def stripList (xs : List Char) : List Char :=
  ((xs.dropWhile isWS).reverse.dropWhile isWS).reverse

/-- Model of Python `str.strip()`. -/
def pyStrip (s : String) : String := ⟨stripList s.data⟩

/-- ASCII uppercasing of one character, as Python `str.upper` does on the
station-table alphabet. -/
def upperChar (c : Char) : Char :=
  if 'a' ≤ c ∧ c ≤ 'z' then Char.ofNat (c.toNat - 32) else c

/-- Model of Python `str.upper()` (ASCII). -/
def pyUpper (s : String) : String := ⟨s.data.map upperChar⟩

/-- Model of Python `str.split('<or>')`: non-overlapping left-to-right split on
the literal four-character delimiter, keeping empty pieces. -/
def splitOr : List Char → List (List Char)
  | '<' :: 'o' :: 'r' :: '>' :: rest => [] :: splitOr rest
  | c :: rest =>
    match splitOr rest with
    | [] => [[c]]
    | s :: ss => (c :: s) :: ss
  | [] => [[]]

/-- Model of `split('<or>')` lifted to `String`. -/
def pySplitOr (s : String) : List String := (splitOr s.data).map fun cs => ⟨cs⟩

/-- Decimal digit test. -/
def isDigitCh (c : Char) : Bool := decide ('0' ≤ c) && decide (c ≤ '9')

/-- Value of a digit string (most significant first). -/
def digitsVal (cs : List Char) : ℕ :=
  cs.foldl (fun n c => n * 10 + (c.toNat - 48)) 0

/-- Model of Python `float(str)` on plain decimal literals: optional
surrounding whitespace, optional sign, digits with at most one decimal point
and at least one digit.  (Exponents and `inf`/`nan` spellings are outside the
station table's vocabulary and are not modelled.) -/
def parseFloat? (s : String) : Option ℚ :=
  let cs := stripList s.data
  let sign : ℚ × List Char :=
    match cs with
    | '-' :: rest => (-1, rest)
    | '+' :: rest => (1, rest)
    | _ => (1, cs)
  let ip := sign.2.takeWhile fun c => !(c == '.')
  let rest := sign.2.dropWhile fun c => !(c == '.')
  let fp := rest.drop 1
  if ip.all isDigitCh ∧ fp.all isDigitCh ∧ (ip ≠ [] ∨ fp ≠ []) ∧ ¬ fp.contains '.' then
    some (sign.1 * ((digitsVal ip : ℚ) + (digitsVal fp : ℚ) / (10 : ℚ) ^ fp.length))
  else
    Option.none

/-- Model of Python `float(value)`: numbers convert to themselves, strings are
parsed, `None` and sequences raise `TypeError` (here: `Option.none`). -/
def pyFloat? : PyVal → Option ℚ
  | .num q => some q
  | .str s => parseFloat? s
  | .pyNone => Option.none
  | .list _ => Option.none

/-- Model of Python `str(value)` as used for the `depth` field.  Numeric
formatting is modelled coarsely (exact-rational printing); the claims under
verification never inspect a concrete numeric depth string. -/
def pyStr : PyVal → String
  | .num q => toString q
  | .str s => s
  | .pyNone => "None"
  | .list _ => "[...]"

/-- Predicate `is_sequence` from `station.py`: iterable and not a string.  Of the
embedded values only `list` qualifies (strings have `strip`, numbers and
`None` are not iterable). -/
def is_sequence : PyVal → Bool
  | .list _ => true
  | _ => false

/-- Python `%` for a positive right operand (`a - m * floor (a / m)`), as used
by `p % 100` and `-p % 100` in `decmin_to_decdeg`. -/
def pymod (a m : ℚ) : ℚ := a - m * ⌊a / m⌋

/-- The numeric core of `decmin_to_decdeg` (lines 226-235 of `station.py`):
`floor(p/100) + (p % 100)/60` for `p >= 0`, else `ceil(p/100) - (-p % 100)/60`. -/
def decdegQ (p : ℚ) : ℚ :=
  if 0 ≤ p then (⌊p / 100⌋ : ℚ) + pymod p 100 / 60
  else (⌈p / 100⌉ : ℚ) - pymod (-p) 100 / 60

/-- Sequential elementwise conversion of a sequence; the first element on
which `float` raises aborts the whole loop (the partial output is discarded by
the `except` handler). -/
def mapOpt (f : PyVal → Option PyVal) : List PyVal → Option (List PyVal)
  | [] => some []
  | x :: xs =>
    match f x, mapOpt f xs with
    | some y, some ys => some (y :: ys)
    | _, _ => Option.none

/-- The `return_string` postprocessing of `decmin_to_decdeg`. -/
def strVal : PyVal → PyVal
  | .list xs => .list (xs.map fun x => PyVal.str (pyStr x))
  | x => .str (pyStr x)

/-- Function `decmin_to_decdeg(pos, return_string)` from `station.py`: converts a
degrees+decimal-minutes encoded number (or a sequence of them) to decimal
degrees; any exception (a value `float` cannot convert) is caught by the bare
`except` and the original input is returned unchanged. -/
def decmin_to_decdeg (pos : PyVal) (return_string : Bool) : PyVal :=
  let res : Option PyVal :=
    if is_sequence pos then
      match pos with
      | .list xs => (mapOpt (fun p => (pyFloat? p).map fun q => PyVal.num (decdegQ q)) xs).map PyVal.list
      | _ => Option.none
    else
      (pyFloat? pos).map fun q => PyVal.num (decdegQ q)
  match res with
  | Option.none => pos
  | some out => if return_string then strVal out else out

/-- The conversion formula exactly as the specification words it (C1): for
non-negative `v`, `floor(v/100) + (v % 100)/60`; for negative `v`,
`ceil(v/100) - (|v| % 100)/60` with the modulo taken on the magnitude. -/
def to_decimal_degrees_spec (v : ℚ) : ℚ :=
  if 0 ≤ v then (⌊v / 100⌋ : ℚ) + pymod v 100 / 60
  else (⌈v / 100⌉ : ℚ) - pymod |v| 100 / 60

/-- A value on which Python `float()` raises: a non-sequence that does not
convert, or a sequence with at least one non-converting element. -/
def unconvertible : PyVal → Bool
  | .list xs => xs.any fun x => pyFloat? x == (Option.none : Option ℚ)
  | v => pyFloat? v == (Option.none : Option ℚ)

/-- Python 3 `round` to an integer: round half to even. -/
noncomputable def pyRound (x : ℝ) : ℤ :=
  if Int.fract x = 1 / 2 then (if Even ⌊x⌋ then ⌊x⌋ else ⌊x⌋ + 1) else round x

/-- Lines 257-271 of `station.py` after both positions have been converted to
decimal degrees: spherical law of cosines on colatitudes, central angle times
`6363 * 1000`, rounded. -/
noncomputable def distDD (lat1 lon1 lat2 lon2 : ℚ) : ℤ :=
  let d2r : ℝ := Real.pi / 180
  let phi1 : ℝ := (90 - (lat1 : ℝ)) * d2r
  let phi2 : ℝ := (90 - (lat2 : ℝ)) * d2r
  let th1 : ℝ := (lon1 : ℝ) * d2r
  let th2 : ℝ := (lon2 : ℝ) * d2r
  pyRound (Real.arccos (Real.sin phi1 * Real.sin phi2 * Real.cos (th1 - th2) +
    Real.cos phi1 * Real.cos phi2) * 6363 * 1000)

open Classical in
/-- Function `distance_to_station(pos1, pos2)` from `station.py`.  Each coordinate is
first passed through `decmin_to_decdeg` (which silently returns non-numeric
values unchanged); if the converted pairs are equal the function returns `0`,
otherwise the arithmetic `90.0 - lat1` requires numbers and raises `TypeError`
(`Except.error`) on anything else. -/
noncomputable def distance_to_station (pos1 pos2 : PyVal × PyVal) : Except String ℤ :=
  let lat1 := decmin_to_decdeg pos1.1 false
  let lon1 := decmin_to_decdeg pos1.2 false
  let lat2 := decmin_to_decdeg pos2.1 false
  let lon2 := decmin_to_decdeg pos2.2 false
  if lat1 = lat2 ∧ lon1 = lon2 then Except.ok 0
  else
    match lat1, lon1, lat2, lon2 with
    | .num a, .num b, .num c, .num d => Except.ok (distDD a b c d)
    | _, _, _, _ => Except.error "TypeError"

/-- Specialisation of `distance_to_station` to numeric positions, as it is applied
to the (numeric) station table rows by `get_closest_station`; the lemma
`distance_to_station_num` shows it agrees with the general function. -/
noncomputable def distQ (pos1 pos2 : ℚ × ℚ) : ℤ :=
  if decdegQ pos1.1 = decdegQ pos2.1 ∧ decdegQ pos1.2 = decdegQ pos2.2 then 0
  else distDD (decdegQ pos1.1) (decdegQ pos1.2) (decdegQ pos2.1) (decdegQ pos2.2)

/-- The central angle exactly as the specification words it (C2): spherical
law of cosines computed from the colatitudes `90 - lat` in radians. -/
noncomputable def centralAngle (lat1 lon1 lat2 lon2 : ℚ) : ℝ :=
  let d2r : ℝ := Real.pi / 180
  Real.arccos (Real.sin ((90 - (lat1 : ℝ)) * d2r) * Real.sin ((90 - (lat2 : ℝ)) * d2r) *
      Real.cos ((lon1 : ℝ) * d2r - (lon2 : ℝ) * d2r) +
    Real.cos ((90 - (lat1 : ℝ)) * d2r) * Real.cos ((90 - (lat2 : ℝ)) * d2r))

/-- The distance contract exactly as the specification words it (C2): convert
both positions, return `0` on exactly equal decimal-degree pairs, otherwise
the central angle times exactly `6363000` m, rounded to the nearest meter. -/
noncomputable def distance_meters_spec (p1 p2 : ℚ × ℚ) : ℤ :=
  if (decdegQ p1.1, decdegQ p1.2) = (decdegQ p2.1, decdegQ p2.2) then 0
  else pyRound (centralAngle (decdegQ p1.1) (decdegQ p1.2) (decdegQ p2.1) (decdegQ p2.2) * 6363000)

/-- One row of the loaded station table (`self._df`), with the columns the
code reads: `STATION_NAME`, `LAT_DM`, `LONG_DM`, `WADEP` (empty-filled),
`MEDIA` (empty-filled), `OUT_OF_BOUNDS_RADIUS` and `SYNONYM_NAMES` (already
passed through `astype(str)`, as in `_create_station_synonyms`). -/
structure Row where
  station_name : String
  lat_dm : ℚ
  lon_dm : ℚ
  wadep : PyVal
  media : String
  out_of_bounds_radius : ℚ
  synonym_names : String

/-- The station-info dictionary returned by the query operations: the source
row plus the keys added by `_add_cols_to_station_info` (`lat`, `lon`, `depth`,
`station`) and, for `get_closest_station` only, `distance` and `acceptable`. -/
structure StationInfo where
  row : Row
  distance : Option ℤ
  acceptable : Option Bool
  lat : ℚ
  lon : ℚ
  depth : String
  station : String

/-- Helper `_add_cols_to_station_info`: `lat`/`lon` are copied from the `LAT_DM` /
`LONG_DM` columns as stored, `depth` is `str(...)` of `WADEP`, `station` is
the canonical name. -/
def mkStationInfo (r : Row) (dist : Option ℤ) (acc : Option Bool) : StationInfo :=
  { row := r, distance := dist, acceptable := acc,
    lat := r.lat_dm, lon := r.lon_dm, depth := pyStr r.wadep, station := r.station_name }

/-- The key/value pairs one table row contributes to `_station_synonyms`, in
assignment order: first `name.upper() -> name`, then - unless the stripped
synonym field is empty - one pair per `<or>`-separated piece, uppercased but
NOT stripped piecewise. -/
def rowEntries (r : Row) : List (String × String) :=
  (pyUpper r.station_name, r.station_name) ::
    (let ss := pyStrip r.synonym_names
     if ss = "" then []
     else (pySplitOr ss).map fun syn => (pyUpper syn, r.station_name))

/-- Builder `_create_station_synonyms`: the rows are processed in table order, each
`dict[key] = value` assignment overwriting any earlier binding of `key`.  The
dict is modelled as the chronological entry list reversed, looked up by first
match (`dget`), which gives exactly Python's last-assignment-wins lookup. -/
def createStationSynonyms (table : List Row) : List (String × String) :=
  table.foldl (fun acc r => (rowEntries r).foldl (fun a e => e :: a) acc) []

/-- Dictionary lookup (`dict.get(key, None)`). -/
def dget (d : List (String × String)) (k : String) : Option String :=
  (d.find? fun e => e.1 == k).map fun e => e.2

/-- Function `get_proper_station_name`: strip and uppercase the query, then look it up
in the synonym dictionary.  (The dictionary is built lazily in the source and
is a pure function of the loaded table; it is modelled as always built.) -/
def get_proper_station_name (table : List Row) (synonym : String) : Option String :=
  dget (createStationSynonyms table) (pyUpper (pyStrip synonym))

/-- Function `get_station_info`: resolve the name through the synonym dictionary
(`if not name` also rejects an empty resolved name), then take the FIRST row
whose `STATION_NAME` equals the canonical name (`.iloc[0]`, which would raise
`IndexError` on an empty selection) and add the derived columns. -/
def get_station_info (table : List Row) (station_name : String) : Except String (Option StationInfo) :=
  match get_proper_station_name table station_name with
  | Option.none => Except.ok Option.none
  | some n =>
    if n = "" then Except.ok Option.none
    else
      match table.find? fun r => r.station_name == n with
      | some r => Except.ok (some (mkStationInfo r Option.none Option.none))
      | Option.none => Except.error "IndexError"

/-- Function `get_distance_to_station(lat, lon, station_name)`: `None` when the name
does not resolve, otherwise `distance_to_station([lat, lon], [info.lat,
info.lon])` - whose exceptions propagate to the caller. -/
noncomputable def get_distance_to_station (table : List Row) (lat lon : PyVal)
    (station_name : String) : Except String (Option ℤ) :=
  match get_station_info table station_name with
  | Except.error e => Except.error e
  | Except.ok Option.none => Except.ok Option.none
  | Except.ok (some info) =>
    match distance_to_station (lat, lon) (PyVal.num info.lat, PyVal.num info.lon) with
    | Except.ok d => Except.ok (some d)
    | Except.error e => Except.error e

/-- Function `get_closest_station(lat, lon)`: `None` when either coordinate is `None`;
otherwise the distance from `(lat, lon)` to every row (`min()` of an empty
table raises `ValueError`), the first row attaining the minimum
(`np.where` + `.values[0]`), annotated with `distance` and `acceptable`. -/
noncomputable def get_closest_station (table : List Row) (lat lon : Option ℚ) :
    Except String (Option StationInfo) :=
  match lat, lon with
  | some la, some lo =>
    let dists := table.map fun r => distQ (la, lo) (r.lat_dm, r.lon_dm)
    match dists.min? with
    | Option.none => Except.error "ValueError"
    | some m =>
      match table.find? fun r => distQ (la, lo) (r.lat_dm, r.lon_dm) == m with
      | some r => Except.ok (some (mkStationInfo r (some m) (some (decide ((m : ℚ) ≤ r.out_of_bounds_radius)))))
      | Option.none => Except.error "IndexError"
  | _, _ => Except.ok Option.none

/-- Function `get_station_list`: `sorted(self._df['STATION_NAME'])` - Python `sorted`
of the name column, i.e. a stable ascending sort of ALL entries, duplicates
included. -/
def get_station_list (table : List Row) : List String :=
  (table.map fun r => r.station_name).mergeSort fun a b => a ≤ b

/-- Method `StationsMatprogram.get_position` (inherited unchanged by `Stations`):
`return self.get_position(*args, *kwargs)` - an unconditional call to itself.
Modelled with explicit fuel: each recursive call consumes one unit, and
exhausted fuel (Python's `RecursionError`) yields no position. -/
def matprogram_get_position : ℕ → String → Option (ℚ × ℚ)
  | 0, _ => Option.none
  | n + 1, name => matprogram_get_position n name

/-- Sample table row: synonyms carry the whitespace around the pieces of
`"ALPHA <or> BETA"` exactly as a real table cell would. -/
def rowS : Row := ⟨"STATION S", 5533.3, 1824, PyVal.str "", "Vatten", 500, "ALPHA <or> BETA"⟩

/-- Sample table row registering the synonym `ALPHA`. -/
def rowA : Row := ⟨"STATION A", 5540, 1824, PyVal.str "", "Vatten", 500, "ALPHA"⟩

/-- Sample table row registering the same synonym `ALPHA` for another station. -/
def rowB : Row := ⟨"STATION B", 5550, 1830, PyVal.str "", "Vatten", 500, "ALPHA"⟩

/-- Sample table row with the same canonical name as `rowA`. -/
def rowA2 : Row := ⟨"STATION A", 5545, 1826, PyVal.str "", "Vatten", 500, ""⟩

/-- A table whose canonical-name column contains a duplicate. -/
def tableDup : List Row := [rowB, rowA, rowA2]

end PreSystemSvea

namespace PreSystemSvea

lemma mapOpt_eq_none {f : PyVal → Option PyVal} {xs : List PyVal} {x : PyVal}
    (hx : x ∈ xs) (hfx : f x = Option.none) : mapOpt f xs = Option.none := by
  induction xs with
  | nil => cases hx
  | cons y ys ih =>
    rcases List.mem_cons.mp hx with h | h
    · subst h
      cases hmo : mapOpt f ys <;> simp [mapOpt, hfx, hmo]
    · have hys := ih h
      cases hfy : f y <;> simp [mapOpt, hys, hfy]

/-- C1: with `return_string` false, the conversion of a numeric value is
`floor(v/100) + (v % 100)/60` for `v >= 0` and `ceil(v/100) - (|v| % 100)/60`
for `v < 0`, the modulo taken on the magnitude. -/
theorem decmin_to_decdeg_matches_spec (v : ℚ) :
    decmin_to_decdeg (PyVal.num v) false = PyVal.num (to_decimal_degrees_spec v) := by
  have habs : to_decimal_degrees_spec v = decdegQ v := by
    unfold to_decimal_degrees_spec decdegQ
    split_ifs with h
    · rfl
    · rw [abs_of_neg (not_le.mp h)]
  rw [habs]
  rfl

/-- C8: on any input Python `float` cannot convert (a malformed scalar, or a
sequence containing one), `decmin_to_decdeg` returns the original input
unchanged; the bare `except` swallows the error, so nothing is raised. -/
theorem decmin_to_decdeg_unconvertible (pos : PyVal) (return_string : Bool)
    (h : unconvertible pos = true) : decmin_to_decdeg pos return_string = pos := by
  cases pos with
  | num q => simp [unconvertible, pyFloat?] at h
  | str s =>
    have hp : parseFloat? s = Option.none := by simpa [unconvertible, pyFloat?] using h
    simp [decmin_to_decdeg, is_sequence, pyFloat?, hp]
  | pyNone => rfl
  | list xs =>
    obtain ⟨x, hx, hfx⟩ : ∃ x ∈ xs, pyFloat? x = Option.none := by
      simpa [unconvertible, List.any_eq_true] using h
    have hm := @mapOpt_eq_none (fun p => (pyFloat? p).map fun q => PyVal.num (decdegQ q))
      xs x hx (by simp [hfx])
    simp [decmin_to_decdeg, is_sequence, hm]

/-- C8 witness: `"12,5"` does not convert and is returned unchanged. -/
theorem decmin_to_decdeg_unconvertible_witness :
    unconvertible (PyVal.str "12,5") = true ∧
    decmin_to_decdeg (PyVal.str "12,5") false = PyVal.str "12,5" :=
  ⟨by decide, decmin_to_decdeg_unconvertible (PyVal.str "12,5") false (by decide)⟩

lemma decmin_num (q : ℚ) : decmin_to_decdeg (PyVal.num q) false = PyVal.num (decdegQ q) := rfl

/-- C2: on numeric positions, `distance_to_station` converts both positions,
returns `0` when the two decimal-degree pairs are exactly equal, and otherwise
the spherical law-of-cosines central angle (from colatitudes `90 - lat` in
radians) times exactly `6363000` m, rounded to the nearest integer meter. -/
theorem distance_to_station_matches_spec (a b c d : ℚ) :
    distance_to_station (PyVal.num a, PyVal.num b) (PyVal.num c, PyVal.num d) =
      Except.ok (distance_meters_spec (a, b) (c, d)) := by
  simp only [distance_to_station, distance_meters_spec, decmin_num, PyVal.num.injEq,
    Prod.mk.injEq]
  split_ifs with h
  · rfl
  · show Except.ok (distDD (decdegQ a) (decdegQ b) (decdegQ c) (decdegQ d)) = _
    have : distDD (decdegQ a) (decdegQ b) (decdegQ c) (decdegQ d) =
        pyRound (centralAngle (decdegQ a) (decdegQ b) (decdegQ c) (decdegQ d) * 6363000) := by
      simp only [distDD, centralAngle]
      congr 1
      ring
    rw [this]

lemma foldl_push (es acc : List (String × String)) :
    es.foldl (fun a e => e :: a) acc = es.reverse ++ acc := by
  induction es generalizing acc with
  | nil => rfl
  | cons e es ih => simp [List.foldl_cons, ih]

lemma createStationSynonyms_eq (table : List Row) :
    createStationSynonyms table = (table.flatMap rowEntries).reverse := by
  suffices h : ∀ acc, table.foldl (fun acc r => (rowEntries r).foldl (fun a e => e :: a) acc) acc
      = (table.flatMap rowEntries).reverse ++ acc by
    simpa [createStationSynonyms] using h []
  induction table with
  | nil => intro acc; rfl
  | cons r t ih =>
    intro acc
    simp only [List.foldl_cons]
    rw [foldl_push, ih]
    simp [List.reverse_append]

lemma rowEntries_snd {r : Row} {e : String × String} (he : e ∈ rowEntries r) :
    e.2 = r.station_name := by
  simp only [rowEntries, List.mem_cons] at he
  rcases he with h | h
  · rw [h]
  · by_cases hss : pyStrip r.synonym_names = ""
    · simp [hss] at h
    · simp only [if_neg hss, List.mem_map] at h
      obtain ⟨syn, _, rfl⟩ := h
      rfl

/-- C5 (amended): a synonym key registered by row `r` and not re-registered by
any later row resolves to `r`'s station: Python dict assignment makes the
LAST writer win (the claim's "first writer wins" is refuted by
`duplicate_synonym_counterexample`); each key still maps to at most one
canonical name, since the index is a map. -/
theorem synonyms_last_writer (t1 t2 : List Row) (r : Row) (k : String)
    (hk : k ∈ (rowEntries r).map Prod.fst)
    (h2 : ∀ r2 ∈ t2, k ∉ (rowEntries r2).map Prod.fst) :
    dget (createStationSynonyms (t1 ++ r :: t2)) k = some r.station_name := by
  rw [createStationSynonyms_eq]
  have hsplit : ((t1 ++ r :: t2).flatMap rowEntries).reverse
      = (t2.flatMap rowEntries).reverse ++ ((rowEntries r).reverse ++ (t1.flatMap rowEntries).reverse) := by
    simp [List.flatMap_append, List.reverse_append]
  rw [hsplit]
  unfold dget
  rw [List.find?_append, List.find?_append]
  have hnone : List.find? (fun e => e.1 == k) (t2.flatMap rowEntries).reverse = Option.none := by
    rw [List.find?_eq_none]
    intro e hmem
    rw [List.mem_reverse, List.mem_flatMap] at hmem
    obtain ⟨r2, hr2, he⟩ := hmem
    have hne : e.1 ≠ k := fun hk1 => h2 r2 hr2 (List.mem_map.mpr ⟨e, he, hk1⟩)
    simpa [beq_iff_eq] using hne
  have hsome : ∃ e, List.find? (fun e => e.1 == k) (rowEntries r).reverse = some e := by
    rw [← Option.isSome_iff_exists, List.find?_isSome]
    obtain ⟨e, he, hk1⟩ := List.mem_map.mp hk
    exact ⟨e, List.mem_reverse.mpr he, by simp [hk1]⟩
  obtain ⟨e, he⟩ := hsome
  have hsnd := rowEntries_snd (List.mem_reverse.mp (List.mem_of_find?_eq_some he))
  rw [hnone, he]
  simp [Option.or, hsnd]

/-- C5 witness: with `[rowA] ++ rowB :: []` both registering `ALPHA`, the
index resolves `ALPHA` to `rowB`'s station. -/
theorem synonyms_last_writer_witness :
    (("ALPHA" ∈ (rowEntries rowB).map Prod.fst) ∧
      ∀ r2 ∈ ([] : List Row), "ALPHA" ∉ (rowEntries r2).map Prod.fst) ∧
    dget (createStationSynonyms ([rowA] ++ rowB :: [])) ("ALPHA") = some rowB.station_name :=
  ⟨⟨by decide, by simp⟩, synonyms_last_writer [rowA] [] rowB ("ALPHA") (by decide) (by simp)⟩

/-- C5 counterexample: the synonym `ALPHA` occurs for `STATION A` (row 0) and
`STATION B` (row 1); the index resolves it to the LATER row's station, not the
earlier one as the claim states. -/
theorem duplicate_synonym_counterexample :
    get_proper_station_name [rowA, rowB] ("ALPHA") = some ("STATION B") ∧
    get_proper_station_name [rowA, rowB] ("ALPHA") ≠ some ("STATION A") := by
  exact ⟨by decide, by decide⟩

/-- C9 (amended): each row registers its canonical name uppercased (mapping to
itself) and, when the stripped synonym field is non-empty, one key per
`<or>`-separated piece, uppercased but NOT trimmed piecewise (pieces may keep
surrounding whitespace or be empty), every key mapping to the row's canonical
name.  A synonym stored with surrounding whitespace is therefore NOT
resolvable by the trimmed lookup (see `untrimmed_synonym_counterexample`). -/
theorem rowEntries_registration (r : Row) (h : pyStrip r.synonym_names ≠ "") :
    (rowEntries r).map Prod.fst =
      pyUpper r.station_name :: (pySplitOr (pyStrip r.synonym_names)).map pyUpper ∧
    ∀ e ∈ rowEntries r, e.2 = r.station_name := by
  refine ⟨?_, fun e he => rowEntries_snd he⟩
  simp [rowEntries, h, List.map_map, Function.comp_def]

/-- C9 witness: `rowS`'s synonym field `"ALPHA <or> BETA"` registers the keys
`"STATION S"`, `"ALPHA "` and `" BETA"`. -/
theorem rowEntries_registration_witness :
    pyStrip rowS.synonym_names ≠ "" ∧
    ((rowEntries rowS).map Prod.fst =
        pyUpper rowS.station_name :: (pySplitOr (pyStrip rowS.synonym_names)).map pyUpper ∧
      ∀ e ∈ rowEntries rowS, e.2 = rowS.station_name) :=
  ⟨by decide, rowEntries_registration rowS (by decide)⟩

/-- C9 counterexample: `rowS` stores the synonym `BETA` with surrounding
whitespace (`"ALPHA <or> BETA"`).  The trimmed lookup `BETA` does NOT resolve
(the claim says it must), because the index registered the untrimmed key
`" BETA"`. -/
theorem untrimmed_synonym_counterexample :
    get_proper_station_name [rowS] ("BETA") = Option.none ∧
    dget (createStationSynonyms [rowS]) (" BETA") = some ("STATION S") := by
  exact ⟨by decide, by decide⟩

/-- C6 (amended): `get_station_list` returns the canonical-name column in
ascending lexical order, as a permutation of the column - duplicates in the
table are RETAINED (the claim's "no duplicates" is refuted by
`get_station_list_dup_counterexample`). -/
theorem get_station_list_sorted_perm (table : List Row) :
    (get_station_list table).Sorted (fun a b => a ≤ b) ∧
    (get_station_list table).Perm (table.map fun r => r.station_name) := by
  constructor
  · have htrans : ∀ a b c : String, decide (a ≤ b) = true → decide (b ≤ c) = true →
        decide (a ≤ c) = true := fun a b c h1 h2 =>
      decide_eq_true (le_trans (of_decide_eq_true h1) (of_decide_eq_true h2))
    have htotal : ∀ a b : String, (decide (a ≤ b) || decide (b ≤ a)) = true := by
      intro a b
      rcases le_total a b with h | h <;> simp [h]
    have hp := List.sorted_mergeSort htrans htotal (table.map fun r => r.station_name)
    exact List.Pairwise.imp (fun h => of_decide_eq_true h) hp
  · exact List.mergeSort_perm _ _

/-- C6 counterexample: a table whose name column is
`["STATION B", "STATION A", "STATION A"]` yields a station list that still
contains the duplicate, contradicting the claim's "contains no duplicates". -/
theorem get_station_list_dup_counterexample : ¬ (get_station_list tableDup).Nodup := by
  intro hn
  have hp := List.mergeSort_perm (tableDup.map fun r => r.station_name) fun a b => a ≤ b
  have hnd : (tableDup.map fun r => r.station_name).Nodup := hp.nodup_iff.mp hn
  have hmap : tableDup.map (fun r => r.station_name) = ["STATION B", "STATION A", "STATION A"] := rfl
  rw [hmap] at hnd
  exact absurd hnd (by decide)

lemma decmin_pyNone : decmin_to_decdeg PyVal.pyNone false = PyVal.pyNone := rfl

lemma distance_none_raises (q c d : ℚ) :
    distance_to_station (PyVal.pyNone, PyVal.num q) (PyVal.num c, PyVal.num d) =
      Except.error "TypeError" := by
  simp only [distance_to_station, decmin_num, decmin_pyNone]
  rw [if_neg (by rintro ⟨h1, -⟩; exact PyVal.noConfusion h1)]

/-- C4 (amended): an unresolvable name makes `get_station_info` and
`get_distance_to_station` return the `None` sentinel without raising, and
`get_closest_station` returns `None` on an absent coordinate; but
`get_distance_to_station` with a RESOLVABLE name and an absent (`None`)
coordinate raises `TypeError` (see `none_coordinate_raises`), contrary to the
claim's "never raises". -/
theorem queries_sentinel (table : List Row) (name : String) (lat lon : PyVal) (c : Option ℚ)
    (h : get_proper_station_name table name = Option.none) :
    get_station_info table name = Except.ok Option.none ∧
    get_distance_to_station table lat lon name = Except.ok Option.none ∧
    get_closest_station table Option.none c = Except.ok Option.none ∧
    get_closest_station table c Option.none = Except.ok Option.none := by
  have hinfo : get_station_info table name = Except.ok Option.none := by
    simp [get_station_info, h]
  refine ⟨hinfo, ?_, ?_, ?_⟩
  · simp [get_distance_to_station, hinfo]
  · cases c <;> rfl
  · cases c <;> rfl

/-- C4 witness: with the one-row table `[rowS]`, the name `"NO SUCH"` is
unresolvable and every query returns its sentinel. -/
theorem queries_sentinel_witness :
    get_proper_station_name [rowS] ("NO SUCH") = Option.none ∧
    (get_station_info [rowS] ("NO SUCH") = Except.ok Option.none ∧
      get_distance_to_station [rowS] PyVal.pyNone PyVal.pyNone ("NO SUCH") = Except.ok Option.none ∧
      get_closest_station [rowS] Option.none Option.none = Except.ok Option.none ∧
      get_closest_station [rowS] Option.none Option.none = Except.ok Option.none) :=
  ⟨by decide, queries_sentinel [rowS] ("NO SUCH") PyVal.pyNone PyVal.pyNone Option.none (by decide)⟩

/-- C4 counterexample: `get_distance_to_station` with the resolvable name
`"STATION S"` and a `None` latitude raises `TypeError` (the subtraction
`90.0 - None` inside the distance computation), instead of returning a
sentinel as the claim states. -/
theorem none_coordinate_raises :
    get_distance_to_station [rowS] PyVal.pyNone (PyVal.num 1824) ("STATION S") =
      Except.error "TypeError" := by
  have hinfo : get_station_info [rowS] ("STATION S") =
      Except.ok (some (mkStationInfo rowS Option.none Option.none)) := rfl
  simp only [get_distance_to_station, hinfo]
  rw [distance_none_raises]

lemma get_station_info_inv {table : List Row} {name : String} {info : StationInfo}
    (h : get_station_info table name = Except.ok (some info)) :
    ∃ r ∈ table, info = mkStationInfo r Option.none Option.none := by
  unfold get_station_info at h
  cases hp : get_proper_station_name table name with
  | none => simp only [hp] at h; simp at h
  | some n =>
    simp only [hp] at h
    by_cases hn : n = ""
    · rw [if_pos hn] at h; simp at h
    · rw [if_neg hn] at h
      cases hf : table.find? (fun r => r.station_name == n) with
      | none => simp only [hf] at h; simp at h
      | some r =>
        simp only [hf, Except.ok.injEq, Option.some.injEq] at h
        exact ⟨r, List.mem_of_find?_eq_some hf, h.symm⟩

lemma get_closest_station_inv {table : List Row} {lat? lon? : Option ℚ} {info : StationInfo}
    (h : get_closest_station table lat? lon? = Except.ok (some info)) :
    ∃ r ∈ table, ∃ m : ℤ,
      info = mkStationInfo r (some m) (some (decide ((m : ℚ) ≤ r.out_of_bounds_radius))) := by
  cases lat? with
  | none =>
    have hz : get_closest_station table Option.none lon? = Except.ok Option.none := by
      cases lon? <;> rfl
    rw [hz] at h; simp at h
  | some la =>
    cases lon? with
    | none => rw [show get_closest_station table (some la) Option.none = Except.ok Option.none from rfl] at h; simp at h
    | some lo =>
      unfold get_closest_station at h
      cases hm : (table.map fun r => distQ (la, lo) (r.lat_dm, r.lon_dm)).min? with
      | none => simp only [hm] at h; simp at h
      | some m =>
        simp only [hm] at h
        cases hf : table.find? (fun r => distQ (la, lo) (r.lat_dm, r.lon_dm) == m) with
        | none => simp only [hf] at h; simp at h
        | some r =>
          simp only [hf, Except.ok.injEq, Option.some.injEq] at h
          exact ⟨r, List.mem_of_find?_eq_some hf, m, h.symm⟩

/-- C7 (amended): every station info returned by `get_station_info` or
`get_closest_station` carries, under `lat`/`lon`, the record's RAW
degrees+decimal-minutes values copied unchanged (NOT converted to decimal
degrees - see `raw_latlon_counterexample`), the depth stringified, and the
canonical name under the stable field `station`; the underlying row is a row
of the table. -/
theorem station_info_fields (table : List Row) (name : String) (lat? lon? : Option ℚ)
    (info : StationInfo)
    (h : get_station_info table name = Except.ok (some info) ∨
         get_closest_station table lat? lon? = Except.ok (some info)) :
    info.lat = info.row.lat_dm ∧ info.lon = info.row.lon_dm ∧
    info.depth = pyStr info.row.wadep ∧ info.station = info.row.station_name ∧
    info.row ∈ table := by
  rcases h with h | h
  · obtain ⟨r, hr, rfl⟩ := get_station_info_inv h
    exact ⟨rfl, rfl, rfl, rfl, hr⟩
  · obtain ⟨r, hr, m, rfl⟩ := get_closest_station_inv h
    exact ⟨rfl, rfl, rfl, rfl, hr⟩

/-- C7 witness: the info returned for `"STATION S"` carries the raw values of
`rowS`. -/
theorem station_info_fields_witness :
    (get_station_info [rowS] ("STATION S") =
        Except.ok (some (mkStationInfo rowS Option.none Option.none)) ∨
      get_closest_station [rowS] Option.none Option.none =
        Except.ok (some (mkStationInfo rowS Option.none Option.none))) ∧
    ((mkStationInfo rowS Option.none Option.none).lat =
        (mkStationInfo rowS Option.none Option.none).row.lat_dm ∧
      (mkStationInfo rowS Option.none Option.none).lon =
        (mkStationInfo rowS Option.none Option.none).row.lon_dm ∧
      (mkStationInfo rowS Option.none Option.none).depth =
        pyStr (mkStationInfo rowS Option.none Option.none).row.wadep ∧
      (mkStationInfo rowS Option.none Option.none).station =
        (mkStationInfo rowS Option.none Option.none).row.station_name ∧
      (mkStationInfo rowS Option.none Option.none).row ∈ [rowS]) :=
  ⟨Or.inl rfl, station_info_fields [rowS] ("STATION S") Option.none Option.none
    (mkStationInfo rowS Option.none Option.none) (Or.inl rfl)⟩

/-- C7 counterexample: `rowS` stores `LAT_DM = 5533.3`; the returned `lat`
field is `5533.3` itself, not its decimal-degree conversion `55.555`, so the
claim that `lat` equals the CoordinateNormalizer conversion of the raw value
is false. -/
theorem raw_latlon_counterexample :
    get_station_info [rowS] ("STATION S") =
      Except.ok (some (mkStationInfo rowS Option.none Option.none)) ∧
    (mkStationInfo rowS Option.none Option.none).lat ≠
      decdegQ (mkStationInfo rowS Option.none Option.none).row.lat_dm := by
  refine ⟨rfl, ?_⟩
  show (5533.3 : ℚ) ≠ decdegQ 5533.3
  norm_num [decdegQ, pymod]

lemma int_min?_spec {l : List ℤ} {m : ℤ} (h : l.min? = some m) :
    m ∈ l ∧ ∀ b ∈ l, m ≤ b := by
  haveI : Std.Antisymm fun a b : ℤ => a ≤ b := ⟨fun h1 h2 => le_antisymm h1 h2⟩
  exact (List.min?_eq_some_iff (fun a => le_refl a) (fun a b => min_choice a b)
    (fun a b c => le_min_iff)).mp h

/-- C3: `get_closest_station` returns `None` when either coordinate is `None`;
on a non-empty table it returns the station info of the first row (in table
order) attaining the global minimum distance, annotated with that minimum
under `distance` and with `acceptable` iff the distance is within that row's
`OUT_OF_BOUNDS_RADIUS`. -/
theorem get_closest_station_spec (table : List Row) (la lo : ℚ) (c1 c2 : Option ℚ)
    (h : table ≠ []) :
    get_closest_station table Option.none c1 = Except.ok Option.none ∧
    get_closest_station table c2 Option.none = Except.ok Option.none ∧
    ∃ info t1 t2,
      get_closest_station table (some la) (some lo) = Except.ok (some info) ∧
      table = t1 ++ info.row :: t2 ∧
      info = mkStationInfo info.row (some (distQ (la, lo) (info.row.lat_dm, info.row.lon_dm)))
        (some (decide ((distQ (la, lo) (info.row.lat_dm, info.row.lon_dm) : ℚ) ≤
          info.row.out_of_bounds_radius))) ∧
      (∀ r ∈ table, distQ (la, lo) (info.row.lat_dm, info.row.lon_dm) ≤
        distQ (la, lo) (r.lat_dm, r.lon_dm)) ∧
      ∀ r ∈ t1, distQ (la, lo) (info.row.lat_dm, info.row.lon_dm) <
        distQ (la, lo) (r.lat_dm, r.lon_dm) := by
  refine ⟨by cases c1 <;> rfl, by cases c2 <;> rfl, ?_⟩
  obtain ⟨m, hm⟩ : ∃ m, (table.map fun r => distQ (la, lo) (r.lat_dm, r.lon_dm)).min? = some m := by
    rcases ho : (table.map fun r => distQ (la, lo) (r.lat_dm, r.lon_dm)).min? with _ | m
    · rw [List.min?_eq_none_iff] at ho
      cases table with
      | nil => exact absurd rfl h
      | cons a l => simp at ho
    · exact ⟨m, ho⟩
  obtain ⟨hmem, hle⟩ := int_min?_spec hm
  obtain ⟨r0, hr0mem, hr0⟩ := List.mem_map.mp hmem
  obtain ⟨rsel, hfd⟩ : ∃ r, table.find? (fun r => distQ (la, lo) (r.lat_dm, r.lon_dm) == m) = some r := by
    rw [← Option.isSome_iff_exists, List.find?_isSome]
    exact ⟨r0, hr0mem, by simp [hr0]⟩
  obtain ⟨hpred, t1, t2, htab, hprev⟩ := List.find?_eq_some.mp hfd
  have hfr : distQ (la, lo) (rsel.lat_dm, rsel.lon_dm) = m := by simpa using hpred
  refine ⟨mkStationInfo rsel (some m) (some (decide ((m : ℚ) ≤ rsel.out_of_bounds_radius))),
    t1, t2, ?_, ?_, ?_, ?_, ?_⟩
  · simp only [get_closest_station, hm, hfd]
  · simpa [mkStationInfo] using htab
  · simp [mkStationInfo, hfr]
  · intro r hr
    show distQ (la, lo) (rsel.lat_dm, rsel.lon_dm) ≤ _
    rw [hfr]
    exact hle _ (List.mem_map_of_mem _ hr)
  · intro r hr
    have hne : distQ (la, lo) (r.lat_dm, r.lon_dm) ≠ m := by simpa using hprev r hr
    have hrtab : r ∈ table := by
      rw [htab]
      exact List.mem_append.mpr (Or.inl hr)
    show distQ (la, lo) (rsel.lat_dm, rsel.lon_dm) < _
    rw [hfr]
    exact lt_of_le_of_ne (hle _ (List.mem_map_of_mem _ hrtab)) (Ne.symm hne)

/-- C3 witness: concrete one-row table and concrete coordinates. -/
theorem get_closest_station_spec_witness :
    (([rowS] : List Row) ≠ []) ∧
    (get_closest_station [rowS] Option.none Option.none = Except.ok Option.none ∧
      get_closest_station [rowS] Option.none Option.none = Except.ok Option.none ∧
      ∃ info t1 t2,
        get_closest_station [rowS] (some 5533.3) (some 1824) = Except.ok (some info) ∧
        [rowS] = t1 ++ info.row :: t2 ∧
        info = mkStationInfo info.row
          (some (distQ (5533.3, 1824) (info.row.lat_dm, info.row.lon_dm)))
          (some (decide ((distQ (5533.3, 1824) (info.row.lat_dm, info.row.lon_dm) : ℚ) ≤
            info.row.out_of_bounds_radius))) ∧
        (∀ r ∈ [rowS], distQ (5533.3, 1824) (info.row.lat_dm, info.row.lon_dm) ≤
          distQ (5533.3, 1824) (r.lat_dm, r.lon_dm)) ∧
        ∀ r ∈ t1, distQ (5533.3, 1824) (info.row.lat_dm, info.row.lon_dm) <
          distQ (5533.3, 1824) (r.lat_dm, r.lon_dm)) :=
  ⟨by simp, get_closest_station_spec [rowS] 5533.3 1824 Option.none Option.none (by simp)⟩

/-- C10: `StationsMatprogram.get_position` calls itself unconditionally, so
whatever call-stack budget (fuel) it is given, no call ever produces a
position: the recursion only ends by exhausting the stack. -/
theorem matprogram_get_position_diverges (fuel : ℕ) (name : String) :
    matprogram_get_position fuel name = Option.none := by
  induction fuel with
  | zero => rfl
  | succ n ih => simpa only [matprogram_get_position] using ih

end PreSystemSvea
